import Mathlib

/-!
Shallow embedding of the QR Packaging Recorder repository
(renderer session controller, scan decoder, filename builder,
SQLite-backed store, JSON flat-file fallback, and the background
transcode supervisor), together with theorems settling the claims
about its specification.

Timestamps are modelled as natural numbers of milliseconds (JS
`Date.now()`); the wall-clock date used by the filename builder is an
explicit record of the `Date` getter values.
-/

namespace PackageApp

/-! ## JS string primitives used by the source -/

/-- Whitespace recognised by JS `String.prototype.trim` / regex `\s`,
restricted to the ASCII control/space characters that occur in scanner
input. -/
def isJsWhitespace (c : Char) : Bool :=
  c = ' ' || c = '\t' || c = '\n' || c = '\r' || c = '\x0b' || c = '\x0c'

/-- JS `String.prototype.trim`: strip leading and trailing whitespace. -/
def jsTrim (s : String) : String :=
  ⟨((s.data.dropWhile isJsWhitespace).reverse.dropWhile isJsWhitespace).reverse⟩

/-- JS regex `\w` (no unicode flag): `[A-Za-z0-9_]`. -/
def isWordChar (c : Char) : Bool :=
  c.isAlpha || c.isDigit || c = '_'

/-- Character class kept by the filename sanitiser regex `[^\w.-]+`:
word characters plus `.` and `-`. -/
def isFileSafeChar (c : Char) : Bool :=
  isWordChar c || c = '.' || c = '-'

/-- Core of `String.replace(/[^\w.-]+/g, '_')`: each maximal run of
characters outside `[\w.-]` is replaced by a single `_`.  The boolean
flag records whether the previous character was inside such a run
(in which case no further `_` is emitted for it). -/
def sanitizeAux : Bool → List Char → List Char
  | _, [] => []
  | inRun, c :: cs =>
    if isFileSafeChar c then c :: sanitizeAux false cs
    else if inRun then sanitizeAux true cs
    else '_' :: sanitizeAux true cs

/-- `String(x).replace(/[^\w.-]+/g, '_')` as used by `buildFilename`. -/
def jsSanitize (s : String) : String :=
  ⟨sanitizeAux false s.data⟩

/-- JS `String(n).padStart(2, '0')` for a natural number. -/
def pad2 (n : Nat) : String :=
  let s := toString n
  ⟨List.replicate (2 - s.length) '0' ++ s.data⟩

/-- The values returned by the JS `Date` getters at the instant
`buildFilename` runs (`getMonth` is 0-based, exactly as in JS). -/
structure DateParts where
  year : Nat
  month : Nat
  day : Nat
  hours : Nat
  minutes : Nat
  seconds : Nat
deriving DecidableEq, Repr

/-- The `stamp` template literal inside `buildFilename`:
`{year}{month+1 padded}{day padded}_{hours padded}{minutes padded}{seconds padded}`. -/
def dateStamp (dt : DateParts) : String :=
  toString dt.year ++ pad2 (dt.month + 1) ++ pad2 dt.day ++ "_" ++
    pad2 dt.hours ++ pad2 dt.minutes ++ pad2 dt.seconds

/-- `buildFilename(order, employee)` from the renderer: sanitised order,
sanitised employee and timestamp joined with `__`, extension `.mp4`.
(`employee || ''` only maps a missing argument to the empty string, so the
argument is modelled as a plain string.) -/
def buildFilename (order : String) (employee : String) (dt : DateParts) : String :=
  jsSanitize order ++ "__" ++ jsSanitize employee ++ "__" ++ dateStamp dt ++ ".mp4"

/-! ## parseOrderCode

`/(?:order|code|ma|don|order_code)\s*[:=]\s*([A-Za-z0-9_-]+)/i.exec(qrText)`:
leftmost match wins; at a given position the alternatives are tried in the
written order (backtracking makes `order_code` reachable after `order`
fails to be followed by `[:=]`).  The character classes `\s`, `[:=]` and
`[A-Za-z0-9_-]` are pairwise disjoint, so greedy matching is exact. -/

/-- JS regex class `[A-Za-z0-9_-]` (the captured token characters). -/
def isTokenChar (c : Char) : Bool :=
  c.isAlpha || c.isDigit || c = '_' || c = '-'

/-- Case-insensitive keyword match at the head of the input; returns the
rest of the input on success. -/
def stripKeywordCI : List Char → List Char → Option (List Char)
  | [], cs => some cs
  | _ :: _, [] => none
  | k :: ks, c :: cs =>
    if k.toLower = c.toLower then stripKeywordCI ks cs else none

/-- Try the whole regex body at the current position for one keyword. -/
def tryKeywordAt (kw : String) (cs : List Char) : Option String :=
  match stripKeywordCI kw.data cs with
  | none => none
  | some rest =>
    let r1 := rest.dropWhile isJsWhitespace
    match r1 with
    | c :: r2 =>
      if c = ':' || c = '=' then
        let r3 := r2.dropWhile isJsWhitespace
        let tok := r3.takeWhile isTokenChar
        if tok.isEmpty then none else some ⟨tok⟩
      else none
    | [] => none

/-- The alternatives of the regex, in source order. -/
def orderKeywords : List String :=
  ["order", "code", "ma", "don", "order_code"]

/-- Try every alternative at the current position (JS alternation order). -/
def tryAnyKeywordAt (cs : List Char) : Option String :=
  orderKeywords.findSome? (fun kw => tryKeywordAt kw cs)

/-- Scan positions left to right for the first full match (JS leftmost
match semantics). -/
def findOrderMatch : List Char → Option String
  | [] => none
  | c :: cs =>
    match tryAnyKeywordAt (c :: cs) with
    | some tok => some tok
    | none => findOrderMatch cs

/-- `parseOrderCode(qrText)` from the renderer: capture group of the
keyword pattern if it matches, otherwise the trimmed text. -/
def parseOrderCode (qrText : String) : String :=
  match findOrderMatch qrText.data with
  | some tok => tok
  | none => jsTrim qrText

/-! ## ScanDecoder

The keyboard-wedge decoder from the renderer `useEffect`: a buffer, the
timestamp of the previous keystroke, an idle-commit timer (modelled as an
explicit `idleFire` event) and the two thresholds. -/

/-- `RESET_GAP_MS` from the source. -/
def RESET_GAP_MS : Nat := 300

/-- `IDLE_COMMIT_MS` from the source. -/
def IDLE_COMMIT_MS : Nat := 180

/-- Decoder state: the accumulation `buffer` and `lastTs`. -/
structure DecState where
  buffer : String
  lastTs : Nat
deriving DecidableEq, Repr

/-- One keydown event: a printable key (`e.key.length === 1`), the
Enter/Tab terminators, or any other (modifier/navigation) key. -/
inductive ScanKey where
  | printable (c : Char)
  | enter
  | tab
  | special
deriving DecidableEq, Repr

/-- `commitIfAny` from the source: trim the buffer, clear it, and emit a
scan event only when the trimmed text has at least 3 characters. -/
def commitIfAny (buffer : String) : String × Option String :=
  let text := jsTrim buffer
  ("", if text.length ≥ 3 then some text else none)

/-- `onKey` from the source: reset the buffer after a long inter-key gap,
commit immediately on Enter/Tab, append printable keys.  Returns the new
state and an emitted scan text, if any.  (Re-arming the idle timer is
modelled by `idleFire` below.) -/
def onKey (st : DecState) (k : ScanKey) (now : Nat) : DecState × Option String :=
  let delta := now - st.lastTs
  let buf0 := if delta > RESET_GAP_MS then "" else st.buffer
  match k with
  | .enter | .tab =>
    let (b, ev) := commitIfAny buf0
    (⟨b, now⟩, ev)
  | .printable c => (⟨buf0.push c, now⟩, none)
  | .special => (⟨buf0, now⟩, none)

/-- The idle-commit timer callback: commit unless the focus moved to an
editable field in the meantime. -/
def idleFire (st : DecState) (focusEditable : Bool) : DecState × Option String :=
  if focusEditable then (st, none)
  else
    let (b, ev) := commitIfAny st.buffer
    ({ st with buffer := b }, ev)

/-! ## SessionController

The recording state held by the `App` component plus the session log the
store appends to (`logSession` appends in both store variants), with the
outcomes of the effectful calls (`UsbRecorder.start`, `recordRtspStart`,
the ffmpeg probe, the blob MIME type) supplied by an environment. -/

/-- `cameraMode` values. -/
inductive CameraMode where
  | usb
  | rtsp
deriving DecidableEq, Repr

/-- The persisted `Config` object (fields of the renderer `Config` type).
`start`/`end` instants are milliseconds. -/
structure Config where
  saveDir : Option String
  cameraMode : CameraMode
  rtspUrl : String
  employeeName : String
  rtspTranscode : Bool
  scale1080 : Bool
  overlayEnabled : Bool
  overlayTemplate : Option String
  videoDeviceId : Option String
deriving DecidableEq, Repr

/-- A logged `Session` record.  Source field `end` is a reserved word in
Lean and is called `endMs` here; `start` is `startMs` for symmetry (the
source stores ISO strings of these instants). -/
structure Session where
  employee : String
  order : String
  startMs : Nat
  endMs : Nat
  durationMs : Nat
  filePath : String
deriving DecidableEq, Repr

/-- Outcomes of the external effects during one scan: whether
`UsbRecorder.init/start` succeeds, whether `recordRtspStart` resolves,
the ffmpeg probe result, whether the recorded blob is already
`video/mp4`, and the random session-id suffix. -/
structure Env where
  usbStartOk : Bool
  rtspStartOk : Bool
  ffmpegAvailable : Bool
  blobIsMp4 : Bool
  sessionSuffix : String
deriving DecidableEq, Repr

/-- Controller state: the React state/refs of `App` plus the session log
owned by the persistence store. -/
structure AppState where
  recording : Bool
  orderCode : Option String
  startTime : Option Nat
  sessionId : Option String
  currentOutPath : Option String
  lastScanAt : Nat
  sessionLog : List Session
deriving DecidableEq, Repr

/-- The user-visible `alert` messages raised by the controller. -/
inductive Notice where
  | chooseDirFirst
  | usbStartFailed
  | ffmpegMissing
  | rtspUrlMissing
  | rtspStartFailed
  | differentCode (active : String)
deriving DecidableEq, Repr

/-- `window.api.pathJoin` restricted to two components. -/
def pathJoin (dir name : String) : String := dir ++ "/" ++ name

/-- Session id: `Date.now()` plus the random suffix. -/
def mkSessionId (now : Nat) (suffix : String) : String :=
  toString now ++ "_" ++ suffix

/-- `filePath.replace(/\.mp4$/i, '.webm')`. -/
def replaceMp4WithWebm (s : String) : String :=
  if s.toLower.endsWith ".mp4" then s.dropRight 4 ++ ".webm" else s

/-- `startRecording(order)` from the renderer.  Returns the new state and
an alert, if any.  State fields are assigned only after the capture
backend has started successfully, exactly as in the source. -/
def startRecording (env : Env) (cfg : Config) (st : AppState) (now : Nat)
    (nowD : DateParts) (order : String) : AppState × Option Notice :=
  match cfg.saveDir with
  | none => (st, some .chooseDirFirst)
  | some dir =>
    let sid := mkSessionId now env.sessionSuffix
    if cfg.cameraMode = .usb then
      if env.usbStartOk then
        ({ st with sessionId := some sid, orderCode := some order,
                   startTime := some now, recording := true }, none)
      else (st, some .usbStartFailed)
    else
      if !env.ffmpegAvailable then (st, some .ffmpegMissing)
      else if jsTrim cfg.rtspUrl = "" then (st, some .rtspUrlMissing)
      else
        let outPath := pathJoin dir (buildFilename order cfg.employeeName nowD)
        if env.rtspStartOk then
          ({ st with currentOutPath := some outPath, sessionId := some sid,
                     orderCode := some order, startTime := some now,
                     recording := true }, none)
        else (st, some .rtspStartFailed)

/-- `stopRecording()` from the renderer: resolve the file path (the RTSP
path chosen at start, else a freshly built name; in the USB branch the
`.mp4` suffix becomes `.webm` when neither a direct-MP4 blob nor ffmpeg
is available), log the session unconditionally, and reset the state.
The TS non-null assertions `saveDir!`, `orderCode!`, `startTime as
number` are modelled with default values. -/
def stopRecording (env : Env) (cfg : Config) (st : AppState) (now : Nat)
    (nowD : DateParts) : AppState :=
  let filePath0 := st.currentOutPath.getD
    (pathJoin (cfg.saveDir.getD "")
      (buildFilename (st.orderCode.getD "") cfg.employeeName nowD))
  let durationMs := now - st.startTime.getD 0
  let filePath :=
    if cfg.cameraMode = .usb then
      if env.blobIsMp4 then filePath0
      else if env.ffmpegAvailable then filePath0
      else replaceMp4WithWebm filePath0
    else filePath0
  let sess : Session :=
    { employee := cfg.employeeName, order := st.orderCode.getD "",
      startMs := st.startTime.getD 0, endMs := now,
      durationMs := durationMs, filePath := filePath }
  { st with recording := false, startTime := none, orderCode := none,
            sessionId := none, currentOutPath := none,
            sessionLog := st.sessionLog ++ [sess] }

/-- `onScan(text)` from the renderer: the 2000 ms debounce against the
previously processed scan, then start / stop / mismatch-notice depending
on the state and the parsed order code. -/
def onScan (env : Env) (cfg : Config) (st : AppState) (now : Nat)
    (nowD : DateParts) (text : String) : AppState × Option Notice :=
  if now - st.lastScanAt < 2000 then (st, none)
  else
    let st1 := { st with lastScanAt := now }
    let order := parseOrderCode text
    if !st1.recording then startRecording env cfg st1 now nowD order
    else if st1.orderCode = some order then
      (stopRecording env cfg st1 now nowD, none)
    else (st1, some (.differentCode (st1.orderCode.getD "")))

/-- The capture backend configured by `cfg` starts successfully in `env`
(USB device acquired, or ffmpeg present with a non-empty RTSP URL and the
recording process spawned). -/
def startSucceeds (env : Env) (cfg : Config) : Prop :=
  if cfg.cameraMode = .usb then env.usbStartOk = true
  else env.ffmpegAvailable = true ∧ jsTrim cfg.rtspUrl ≠ "" ∧ env.rtspStartOk = true

/-- The capture backend configured by `cfg` fails to start in `env`: the
USB device is denied/unavailable, or the remote recording process cannot
be spawned (ffmpeg present and URL set, so the failure is the capture
start itself). -/
def startFails (env : Env) (cfg : Config) : Prop :=
  if cfg.cameraMode = .usb then env.usbStartOk = false
  else env.ffmpegAvailable = true ∧ jsTrim cfg.rtspUrl ≠ "" ∧ env.rtspStartOk = false

/-! ## Sorting helpers for the two `getUsers` variants -/

/-- Strict lexicographic order on char lists by code point. -/
def listCharLt : List Char → List Char → Bool
  | [], [] => false
  | [], _ :: _ => true
  | _ :: _, [] => false
  | a :: as, b :: bs =>
    if a.toNat < b.toNat then true
    else if b.toNat < a.toNat then false
    else listCharLt as bs

/-- ASCII lowercase folding of a string (SQLite `NOCASE` folds `A`–`Z`
only, which `Char.toLower` matches on ASCII input). -/
def asciiLower (s : String) : String := ⟨s.data.map Char.toLower⟩

/-- The SQLite `ORDER BY name COLLATE NOCASE` comparison: byte order on
the case-folded strings. -/
def nocaseLt (a b : String) : Bool :=
  listCharLt (asciiLower a).data (asciiLower b).data

/-- Model of `a.localeCompare(b, 'vi') < 0` restricted to ASCII names:
primary case-insensitive lexicographic comparison; on a case-only tie the
binary order of the original strings is reversed (lowercase first, as the
collator orders case differences).  Only membership in the sorted list is
used by the theorems below. -/
def viLt (a b : String) : Bool :=
  if asciiLower a = asciiLower b then listCharLt b.data a.data
  else listCharLt (asciiLower a).data (asciiLower b).data

/-- Insert keeping earlier equal elements first (stable insertion). -/
def insertSorted (lt : String → String → Bool) (x : String) :
    List String → List String
  | [] => [x]
  | y :: ys => if lt x y then x :: y :: ys else y :: insertSorted lt x ys

/-- Insertion sort used for both `ORDER BY ... COLLATE NOCASE` and the
JS `Array.prototype.sort`.  Elements with equal keys end up in reversed
encounter order (the `foldr` inserts later elements first); SQLite
leaves the tie order unspecified, and only membership in the sorted
list enters the theorems below. -/
def sortByLt (lt : String → String → Bool) (l : List String) : List String :=
  l.foldr (insertSorted lt) []

/-- `Array.from(new Set(xs))`: deduplicate keeping first occurrences. -/
def dedupFirst : List String → List String
  | [] => []
  | x :: xs => x :: (dedupFirst xs).filter (fun y => y ≠ x)

/-! ## SqliteStore (`src/store-db.js`)

State of the `users` table (a list in rowid order; `name TEXT NOT NULL
UNIQUE` is a binary, case-sensitive uniqueness constraint) and the
append-only `sessions` table. -/

/-- SQLite-backed store state. -/
structure SqliteState where
  users : List String
  sessions : List Session
deriving DecidableEq, Repr

/-- An empty database, as `_init` creates it. -/
def emptySqlite : SqliteState := ⟨[], []⟩

/-- `INSERT OR IGNORE INTO users(name) VALUES(n)`. -/
def sqlInsertIgnoreUser (users : List String) (n : String) : List String :=
  if n ∈ users then users else users ++ [n]

namespace SqliteStore

/-- `SqliteStore.addUser`: trim, reject empty, insert-or-ignore. -/
def addUser (st : SqliteState) (name : String) : SqliteState × Bool :=
  let n := jsTrim name
  if n = "" then (st, false)
  else ({ st with users := sqlInsertIgnoreUser st.users n }, true)

/-- `SqliteStore.logSession`: upsert the trimmed employee name into the
roster when non-empty, then append the session row. -/
def logSession (st : SqliteState) (s : Session) : SqliteState :=
  let name := jsTrim s.employee
  let users := if name = "" then st.users else sqlInsertIgnoreUser st.users name
  { users := users, sessions := st.sessions ++ [s] }

/-- `SqliteStore.renameUser`: `UPDATE OR IGNORE users SET name=n WHERE
name=o` (a row whose new name collides with another existing row is left
unchanged), then `UPDATE sessions SET employee_name=n WHERE
employee_name=o` unconditionally. -/
def renameUser (st : SqliteState) (oldName newName : String) :
    SqliteState × Bool :=
  let o := jsTrim oldName
  let n := jsTrim newName
  if o = "" || n = "" then (st, false)
  else
    let users := st.users.map (fun u =>
      if u = o then (if n ∈ st.users ∧ n ≠ o then u else n) else u)
    let sessions := st.sessions.map (fun s =>
      if s.employee = o then { s with employee := n } else s)
    (⟨users, sessions⟩, true)

/-- `SqliteStore.deleteUser`: delete the roster row only; sessions are
kept as historical records. -/
def deleteUser (st : SqliteState) (name : String) : SqliteState × Bool :=
  let n := jsTrim name
  if n = "" then (st, false)
  else ({ st with users := st.users.filter (fun u => u ≠ n) }, true)

/-- `SqliteStore.getUsers`: `SELECT name FROM users ORDER BY name COLLATE
NOCASE`. -/
def getUsers (st : SqliteState) : List String :=
  sortByLt nocaseLt st.users

end SqliteStore

/-! ## Flat-file fallback (`src/store.js` + the fallback paths of the
`get-users` / `add-user` / `rename-user` / `delete-user` IPC handlers in
`src/main.js`, which maintain `users.json`) -/

/-- Fallback store state: the `users.json` array and the `sessions.json`
array of the JSON store. -/
structure JsonState where
  usersFile : List String
  sessions : List Session
deriving DecidableEq, Repr

/-- Fresh fallback state (`_ensure` writes an empty session array and no
`users.json`, read as `[]`). -/
def emptyJson : JsonState := ⟨[], []⟩

namespace JsonOps

/-- `add-user` fallback: push if absent, then locale-sort the file. -/
def addUser (st : JsonState) (name : String) : JsonState :=
  let n := jsTrim name
  if n = "" then st
  else
    let users := if n ∈ st.usersFile then st.usersFile else st.usersFile ++ [n]
    { st with usersFile := sortByLt viLt users }

/-- Replace the first exact occurrence (`findIndex` + assignment). -/
def replaceFirst : List String → String → String → List String
  | [], _, _ => []
  | x :: xs, o, n => if x = o then n :: xs else x :: replaceFirst xs o n

/-- `rename-user` fallback: replace in `users.json`, then locale-sort.
Sessions are not rewritten in this variant. -/
def renameUser (st : JsonState) (oldName newName : String) : JsonState :=
  let o := jsTrim oldName
  let n := jsTrim newName
  if o = "" || n = "" then st
  else { st with usersFile := sortByLt viLt (replaceFirst st.usersFile o n) }

/-- `delete-user` fallback: filter the exact name out of `users.json`. -/
def deleteUser (st : JsonState) (name : String) : JsonState :=
  let n := jsTrim name
  if n = "" then st
  else { st with usersFile := st.usersFile.filter (fun u => u ≠ n) }

/-- `Store.logSession` of the JSON store: append only. -/
def logSession (st : JsonState) (s : Session) : JsonState :=
  { st with sessions := st.sessions ++ [s] }

/-- The trimmed non-empty employee names of the session log
(`sessions.map(s => (s.employee||'').trim()).filter(Boolean)`). -/
def namesFromSessions (sessions : List Session) : List String :=
  (sessions.map (fun s => jsTrim s.employee)).filter (fun n => n ≠ "")

/-- `get-users` fallback in `main.js`: merge `users.json` with the names
found in historical sessions, deduplicate, drop empties, locale-sort. -/
def getUsers (st : JsonState) : List String :=
  let fromSessions := namesFromSessions st.sessions
  sortByLt viLt
    ((dedupFirst (st.usersFile ++ fromSessions)).filter (fun n => n ≠ ""))

end JsonOps

/-! ## Operation sequences over both stores (for the refinement claim) -/

/-- One logical store operation. -/
inductive StoreOp where
  | addUser (name : String)
  | renameUser (oldName newName : String)
  | deleteUser (name : String)
  | logSession (s : Session)
deriving DecidableEq, Repr

/-- Whether an operation is a roster-add or a session-log. -/
def StoreOp.isAddOrLog : StoreOp → Bool
  | .addUser _ => true
  | .logSession _ => true
  | _ => false

/-- Apply one operation to the SQLite store. -/
def sqliteApply (st : SqliteState) : StoreOp → SqliteState
  | .addUser n => (SqliteStore.addUser st n).1
  | .renameUser o n => (SqliteStore.renameUser st o n).1
  | .deleteUser n => (SqliteStore.deleteUser st n).1
  | .logSession s => SqliteStore.logSession st s

/-- Apply one operation to the flat-file fallback. -/
def jsonApply (st : JsonState) : StoreOp → JsonState
  | .addUser n => JsonOps.addUser st n
  | .renameUser o n => JsonOps.renameUser st o n
  | .deleteUser n => JsonOps.deleteUser st n
  | .logSession s => JsonOps.logSession st s

/-- Run a sequence of operations on the SQLite store. -/
def sqliteRun (ops : List StoreOp) : SqliteState :=
  ops.foldl sqliteApply emptySqlite

/-- Run a sequence of operations on the flat-file fallback. -/
def jsonRun (ops : List StoreOp) : JsonState :=
  ops.foldl jsonApply emptyJson

/-- Invariant relating the two stores: the SQLite `users` table holds
exactly the names the fallback would derive (the `users.json` entries
plus the names of historical sessions), and never the empty string. -/
def StoresAgree (s1 : SqliteState) (s2 : JsonState) : Prop :=
  (∀ n : String, n ∈ s1.users ↔
      (n ∈ s2.usersFile ∨ n ∈ JsonOps.namesFromSessions s2.sessions)) ∧
    "" ∉ s1.users

/-! ## Background transcode close handler (`transcode-webm-to-mp4-bg`)

The `close` callback of the detached ffmpeg job: unlink the input file
only on a zero exit code with cleanup requested.  The handler has no
access to the persistence store, so the session log is passed through
untouched; the files written by ffmpeg itself while running are outside
the handler and not modelled. -/

/-- Effect of the background job's `close` handler on the file system
(set of existing paths) and the session log. -/
def bgTranscodeOnClose (inputPath : String) (deleteInput : Bool)
    (code : Nat) (files : List String) (log : List Session) :
    List String × List Session :=
  (if code = 0 && deleteInput then files.filter (fun p => p ≠ inputPath)
   else files, log)

/-! ## Shared concrete fixtures used by witnesses and counterexamples -/

/-- Environment in which every external effect succeeds. -/
def allOkEnv : Env := ⟨true, true, true, true, "x"⟩

/-- USB-mode config with a configured save directory. -/
def usbCfg : Config := ⟨some "/d", .usb, "", "emp", false, false, false, none, none⟩

/-- Initial controller state (`Idle`, empty log). -/
def idleState : AppState := ⟨false, none, none, none, none, 0, []⟩

/-- A fixed instant for the filename builder. -/
def someDate : DateParts := ⟨2024, 0, 1, 0, 0, 0⟩

/-- Environment in which both capture backends fail to start. -/
def captureFailEnv : Env := ⟨false, false, true, true, "x"⟩

/-- A controller state in the middle of recording order `"A1"`. -/
def recordingState : AppState := ⟨true, some "A1", some 100, some "sid", none, 0, []⟩

/-! ## Helper lemmas -/

theorem mem_insertSorted (lt : String → String → Bool) (x a : String)
    (l : List String) : a ∈ insertSorted lt x l ↔ a = x ∨ a ∈ l := by
  induction l with
  | nil => simp [insertSorted]
  | cons y ys ih =>
    simp only [insertSorted]
    split
    · simp
    · simp [ih]
      tauto

theorem mem_sortByLt (lt : String → String → Bool) (a : String)
    (l : List String) : a ∈ sortByLt lt l ↔ a ∈ l := by
  induction l with
  | nil => simp [sortByLt]
  | cons x xs ih =>
    simp only [sortByLt, List.foldr] at *
    rw [mem_insertSorted, ih]
    simp

theorem mem_dedupFirst (a : String) (l : List String) :
    a ∈ dedupFirst l ↔ a ∈ l := by
  induction l with
  | nil => simp [dedupFirst]
  | cons x xs ih =>
    simp only [dedupFirst, List.mem_cons, List.mem_filter, ih]
    by_cases h : a = x <;> simp [h]

theorem mem_sqlInsertIgnoreUser (users : List String) (n a : String) :
    a ∈ sqlInsertIgnoreUser users n ↔ a ∈ users ∨ a = n := by
  simp only [sqlInsertIgnoreUser]
  split
  · rename_i h
    exact ⟨Or.inl, fun h' => h'.elim id (fun ha => ha ▸ h)⟩
  · simp

/-! ## Controller lemmas -/

theorem startRecording_lastScanAt (env : Env) (cfg : Config) (st : AppState)
    (now : Nat) (d : DateParts) (order : String) :
    (startRecording env cfg st now d order).1.lastScanAt = st.lastScanAt := by
  unfold startRecording
  repeat' split
  all_goals rfl

theorem stopRecording_lastScanAt (env : Env) (cfg : Config) (st : AppState)
    (now : Nat) (d : DateParts) :
    (stopRecording env cfg st now d).lastScanAt = st.lastScanAt := rfl

/-- A scan that passes the debounce always records its own timestamp as
the last processed scan, whatever branch it then takes. -/
theorem onScan_processed_lastScanAt (env : Env) (cfg : Config) (st : AppState)
    (now : Nat) (nowD : DateParts) (text : String)
    (hdeb : 2000 ≤ now - st.lastScanAt) :
    (onScan env cfg st now nowD text).1.lastScanAt = now := by
  unfold onScan
  rw [if_neg (Nat.not_lt.mpr hdeb)]
  simp only
  split
  · rw [startRecording_lastScanAt]
  · split
    · rfl
    · rfl

/-- `stopRecording` resets the controller and appends exactly one session
carrying the active order code. -/
theorem stopRecording_spec (env : Env) (cfg : Config) (st : AppState)
    (now : Nat) (nowD : DateParts) :
    ∃ sess : Session,
      stopRecording env cfg st now nowD =
        { st with recording := false, startTime := none, orderCode := none,
                  sessionId := none, currentOutPath := none,
                  sessionLog := st.sessionLog ++ [sess] } ∧
        sess.order = st.orderCode.getD "" ∧
        sess.employee = cfg.employeeName ∧
        sess.startMs = st.startTime.getD 0 ∧ sess.endMs = now :=
  ⟨_, rfl, rfl, rfl, rfl, rfl⟩

/-- A processed scan in the `Idle` state with a configured save directory
and a successfully starting capture backend moves the controller to
`Recording` with the parsed order, without logging anything. -/
theorem onScan_start_spec (env : Env) (cfg : Config) (st : AppState)
    (now : Nat) (nowD : DateParts) (text dir : String)
    (hdir : cfg.saveDir = some dir)
    (hidle : st.recording = false)
    (hdeb : 2000 ≤ now - st.lastScanAt)
    (hok : startSucceeds env cfg) :
    (onScan env cfg st now nowD text).2 = none ∧
      (onScan env cfg st now nowD text).1.recording = true ∧
      (onScan env cfg st now nowD text).1.orderCode = some (parseOrderCode text) ∧
      (onScan env cfg st now nowD text).1.startTime = some now ∧
      (onScan env cfg st now nowD text).1.lastScanAt = now ∧
      (onScan env cfg st now nowD text).1.sessionLog = st.sessionLog := by
  have hd : ¬ (now - st.lastScanAt < 2000) := Nat.not_lt.mpr hdeb
  by_cases hm : cfg.cameraMode = .usb
  · have hu : env.usbStartOk = true := by simpa [startSucceeds, hm] using hok
    simp [onScan, startRecording, hd, hidle, hdir, hm, hu]
  · have hr : env.ffmpegAvailable = true ∧ jsTrim cfg.rtspUrl ≠ "" ∧
        env.rtspStartOk = true := by simpa [startSucceeds, hm] using hok
    simp [onScan, startRecording, hd, hidle, hdir, hm, hr.1, hr.2.1, hr.2.2]

/-- A processed scan in the `Recording` state whose parsed order matches
the active order takes the stop path. -/
theorem onScan_stop_spec (env : Env) (cfg : Config) (st : AppState)
    (now : Nat) (nowD : DateParts) (text q : String)
    (hdeb : 2000 ≤ now - st.lastScanAt)
    (hrec : st.recording = true)
    (hord : st.orderCode = some q)
    (heq : parseOrderCode text = q) :
    onScan env cfg st now nowD text
      = (stopRecording env cfg { st with lastScanAt := now } now nowD, none) := by
  have hd : ¬ (now - st.lastScanAt < 2000) := Nat.not_lt.mpr hdeb
  simp [onScan, hd, hrec, hord, heq]

/-! ## Claim C1: double scan of the same order -/

/-- C1: from `Idle` with a configured save directory and a working
capture backend, scanning the same text twice with both scans outside the
debounce window starts a session on the first scan and stops it on the
second, appending exactly one session record carrying the parsed order,
with no notices. -/
theorem c1_double_scan_single_session (env : Env) (cfg : Config) (st : AppState)
    (dir text : String) (t1 t2 : Nat) (d1 d2 : DateParts)
    (hdir : cfg.saveDir = some dir)
    (hidle : st.recording = false)
    (h1 : 2000 ≤ t1 - st.lastScanAt)
    (h2 : 2000 ≤ t2 - t1)
    (hok : startSucceeds env cfg) :
    (onScan env cfg st t1 d1 text).1.recording = true ∧
      (onScan env cfg st t1 d1 text).2 = none ∧
      (onScan env cfg (onScan env cfg st t1 d1 text).1 t2 d2 text).1.recording = false ∧
      (onScan env cfg (onScan env cfg st t1 d1 text).1 t2 d2 text).2 = none ∧
      ∃ sess : Session,
        (onScan env cfg (onScan env cfg st t1 d1 text).1 t2 d2 text).1.sessionLog
          = st.sessionLog ++ [sess] ∧ sess.order = parseOrderCode text := by
  obtain ⟨hn1, hrec1, hord1, hstart1, hlast1, hlog1⟩ :=
    onScan_start_spec env cfg st t1 d1 text dir hdir hidle h1 hok
  set s1 := (onScan env cfg st t1 d1 text).1 with hs1
  have hdeb2 : 2000 ≤ t2 - s1.lastScanAt := by rw [hlast1]; exact h2
  have hstop := onScan_stop_spec env cfg s1 t2 d2 text (parseOrderCode text)
    hdeb2 hrec1 hord1 rfl
  obtain ⟨sess, hrw, hordS, _, _, _⟩ :=
    stopRecording_spec env cfg { s1 with lastScanAt := t2 } t2 d2
  refine ⟨hrec1, hn1, ?_, ?_, sess, ?_, ?_⟩
  · rw [hstop]
    simp [hrw]
  · rw [hstop]
  · rw [hstop, hrw]
    simp [hlog1]
  · rw [hordS]
    simp [hord1]

/-- C1 witness: a concrete USB-mode double scan of `"ABC123"` at 2000 ms
and 4000 ms. -/
theorem c1_double_scan_single_session_witness :
    (onScan allOkEnv usbCfg idleState 2000 someDate "ABC123").1.recording = true ∧
      (onScan allOkEnv usbCfg idleState 2000 someDate "ABC123").2 = none ∧
      (onScan allOkEnv usbCfg
        (onScan allOkEnv usbCfg idleState 2000 someDate "ABC123").1
        4000 someDate "ABC123").1.recording = false ∧
      (onScan allOkEnv usbCfg
        (onScan allOkEnv usbCfg idleState 2000 someDate "ABC123").1
        4000 someDate "ABC123").2 = none ∧
      ∃ sess : Session,
        (onScan allOkEnv usbCfg
          (onScan allOkEnv usbCfg idleState 2000 someDate "ABC123").1
          4000 someDate "ABC123").1.sessionLog
            = idleState.sessionLog ++ [sess] ∧ sess.order = parseOrderCode "ABC123" :=
  c1_double_scan_single_session allOkEnv usbCfg idleState "/d" "ABC123" 2000 4000
    someDate someDate rfl rfl (by decide) (by decide)
    (by simp [startSucceeds, allOkEnv, usbCfg])

/-! ## Claim C5: mismatched scan while recording -/

/-- C5: a processed scan while `Recording` whose parsed order differs
from the active order only raises the "different code" notice and
updates the debounce timestamp; the active session fields, the state and
the session log are untouched. -/
theorem c5_mismatch_scan_noop (env : Env) (cfg : Config) (st : AppState)
    (now : Nat) (d : DateParts) (text q : String)
    (hrec : st.recording = true)
    (hord : st.orderCode = some q)
    (hne : parseOrderCode text ≠ q)
    (hdeb : 2000 ≤ now - st.lastScanAt) :
    onScan env cfg st now d text
      = ({ st with lastScanAt := now }, some (.differentCode q)) := by
  have hd : ¬ (now - st.lastScanAt < 2000) := Nat.not_lt.mpr hdeb
  simp [onScan, hd, hrec, hord, Ne.symm hne]

/-- C5 witness: scanning `"B2"` while recording order `"A1"`. -/
theorem c5_mismatch_scan_noop_witness :
    onScan allOkEnv usbCfg recordingState 2500 someDate "B2"
      = ({ recordingState with lastScanAt := 2500 },
         some (.differentCode "A1")) :=
  c5_mismatch_scan_noop allOkEnv usbCfg recordingState 2500 someDate "B2" "A1"
    rfl rfl (by decide) (by decide)

/-! ## Claim C6: debounce -/

/-- C6 counterexample: the pair of scans at 2500 ms and 4400 ms arrives
1900 ms apart, yet the second one is processed (it stops the session and
appends a record), because the first member of the pair was itself
debounced against the processed scan at 2000 ms: the debounce window is
relative to the previously processed scan, not the previous scan event. -/
theorem c6_debounce_counterexample :
    (4400 : Nat) - 2500 < 2000 ∧
      onScan allOkEnv usbCfg
          (onScan allOkEnv usbCfg idleState 2000 someDate "A7X").1
          2500 someDate "A7X"
        = ((onScan allOkEnv usbCfg idleState 2000 someDate "A7X").1, none) ∧
      (onScan allOkEnv usbCfg
          (onScan allOkEnv usbCfg idleState 2000 someDate "A7X").1
          4400 someDate "A7X").1.recording = false ∧
      (onScan allOkEnv usbCfg
          (onScan allOkEnv usbCfg idleState 2000 someDate "A7X").1
          4400 someDate "A7X").1.sessionLog ≠
        ((onScan allOkEnv usbCfg idleState 2000 someDate "A7X").1).sessionLog := by
  refine ⟨by decide, by decide, by decide, by decide⟩

/-- C6 (amended): when the first of two scans less than 2000 ms apart is
itself processed (it is at least 2000 ms after the previously processed
scan), the second is ignored outright: no state change, no session
start/stop, no notice. -/
theorem c6_debounce_drops_second (env : Env) (cfg : Config) (st : AppState)
    (t1 t2 : Nat) (d1 d2 : DateParts) (text1 text2 : String)
    (h1 : 2000 ≤ t1 - st.lastScanAt)
    (h2 : t2 - t1 < 2000) :
    onScan env cfg (onScan env cfg st t1 d1 text1).1 t2 d2 text2
      = ((onScan env cfg st t1 d1 text1).1, none) := by
  have hl := onScan_processed_lastScanAt env cfg st t1 d1 text1 h1
  set s1 := (onScan env cfg st t1 d1 text1).1 with hs1
  have hcond : t2 - s1.lastScanAt < 2000 := by rw [hl]; exact h2
  unfold onScan
  rw [if_pos hcond]

/-- C6 witness: scans at 2000 ms and 3000 ms; the second is dropped. -/
theorem c6_debounce_drops_second_witness :
    onScan allOkEnv usbCfg
        (onScan allOkEnv usbCfg idleState 2000 someDate "ABC123").1
        3000 someDate "XYZ99"
      = ((onScan allOkEnv usbCfg idleState 2000 someDate "ABC123").1, none) :=
  c6_debounce_drops_second allOkEnv usbCfg idleState 2000 3000 someDate someDate
    "ABC123" "XYZ99" (by decide) (by decide)

/-! ## Claim C7: capture start failure -/

/-- C7: a processed scan in `Idle` with a configured save directory whose
capture backend fails to start (USB device denied, or the RTSP recording
process cannot be spawned) raises an error notice and leaves the
controller `Idle`, with no active-session fields set and nothing logged;
only the debounce timestamp advances. -/
theorem c7_start_failure_stays_idle (env : Env) (cfg : Config) (st : AppState)
    (now : Nat) (d : DateParts) (text dir : String)
    (hdir : cfg.saveDir = some dir)
    (hidle : st.recording = false)
    (hdeb : 2000 ≤ now - st.lastScanAt)
    (hfail : startFails env cfg) :
    ∃ e : Notice,
      onScan env cfg st now d text = ({ st with lastScanAt := now }, some e) ∧
        (e = Notice.usbStartFailed ∨ e = Notice.rtspStartFailed) := by
  have hd : ¬ (now - st.lastScanAt < 2000) := Nat.not_lt.mpr hdeb
  by_cases hm : cfg.cameraMode = .usb
  · have hu : env.usbStartOk = false := by simpa [startFails, hm] using hfail
    refine ⟨.usbStartFailed, ?_, Or.inl rfl⟩
    simp [onScan, startRecording, hd, hidle, hdir, hm, hu]
  · have hr : env.ffmpegAvailable = true ∧ jsTrim cfg.rtspUrl ≠ "" ∧
        env.rtspStartOk = false := by simpa [startFails, hm] using hfail
    refine ⟨.rtspStartFailed, ?_, Or.inr rfl⟩
    simp [onScan, startRecording, hd, hidle, hdir, hm, hr.1, hr.2.1, hr.2.2]

/-- C7 witness: a USB start failure at 2000 ms from the initial state. -/
theorem c7_start_failure_stays_idle_witness :
    ∃ e : Notice,
      onScan captureFailEnv usbCfg idleState 2000 someDate "ABC123"
          = ({ idleState with lastScanAt := 2000 }, some e) ∧
        (e = Notice.usbStartFailed ∨ e = Notice.rtspStartFailed) :=
  c7_start_failure_stays_idle captureFailEnv usbCfg idleState 2000 someDate
    "ABC123" "/d" rfl rfl (by decide)
    (by simp [startFails, captureFailEnv, usbCfg])

/-! ## Claim C4: filename builder -/

/-- C4 counterexample: the claim says order `"AB*1"` and employee
`"J. Doe"` yield a name matching `AB_1__J__Doe__<timestamp>.<ext>`, but
the sanitiser regex `[^\w.-]+` keeps `.` and collapses runs, so the
actual name at the fixed instant is `AB_1__J._Doe__20240101_000000.mp4`,
which differs from the claimed `AB_1__J__Doe__20240101_000000.mp4`. -/
theorem c4_filename_counterexample :
    buildFilename "AB*1" "J. Doe" someDate = "AB_1__J._Doe__20240101_000000.mp4" ∧
      "AB_1__J._Doe__20240101_000000.mp4" ≠ "AB_1__J__Doe__20240101_000000.mp4" := by
  constructor
  · decide
  · decide

/-- C4 (amended): the filename builder replaces every maximal run of
characters other than word characters, `.` and `-` by a single `_`; for
order `"AB*1"` and employee `"J. Doe"` at any fixed instant it produces
`AB_1__J._Doe__<timestamp>.mp4`. -/
theorem c4_filename_sanitization (dt : DateParts) :
    buildFilename "AB*1" "J. Doe" dt = "AB_1__J._Doe__" ++ dateStamp dt ++ ".mp4" := by
  have h : jsSanitize "AB*1" ++ "__" ++ jsSanitize "J. Doe" ++ "__" = "AB_1__J._Doe__" := by
    decide
  simp only [buildFilename]
  rw [h]

/-! ## Claim C8: background transcode failure handling -/

/-- C8: a background conversion job that exits with a nonzero status
leaves the file system and the session log untouched (the input file is
not deleted even when cleanup was requested); on a zero exit status with
cleanup requested the input file is deleted. -/
theorem c8_bg_transcode_cleanup (inputPath : String) (deleteInput : Bool)
    (code : Nat) (files : List String) (log : List Session) :
    (code ≠ 0 → bgTranscodeOnClose inputPath deleteInput code files log = (files, log)) ∧
      (code = 0 → deleteInput = true →
        inputPath ∉ (bgTranscodeOnClose inputPath deleteInput code files log).1) := by
  constructor
  · intro h
    simp [bgTranscodeOnClose, h]
  · intro h hd
    subst h
    subst hd
    simp [bgTranscodeOnClose, List.mem_filter]

/-- C8 witness: a failing job (`code = 1`) preserves the input file and
the log; a succeeding job (`code = 0`) with cleanup removes it. -/
theorem c8_bg_transcode_cleanup_witness :
    bgTranscodeOnClose "/tmp/in.webm" true 1 ["/tmp/in.webm"] [] = (["/tmp/in.webm"], []) ∧
      "/tmp/in.webm" ∉ (bgTranscodeOnClose "/tmp/in.webm" true 0 ["/tmp/in.webm"] []).1 :=
  ⟨(c8_bg_transcode_cleanup "/tmp/in.webm" true 1 ["/tmp/in.webm"] []).1 (by decide),
   (c8_bg_transcode_cleanup "/tmp/in.webm" true 0 ["/tmp/in.webm"] []).2 rfl rfl⟩

/-! ## Claim C9: short committed buffers emit nothing -/

/-- C9: a committed buffer whose trimmed text is shorter than 3
characters produces no scan event and is discarded, on an Enter commit,
a Tab commit, and an idle-timer commit alike. -/
theorem c9_short_commit_dropped (st : DecState) (now : Nat)
    (h : (jsTrim st.buffer).length < 3) :
    (onKey st .enter now).2 = none ∧ (onKey st .enter now).1.buffer = "" ∧
      (onKey st .tab now).2 = none ∧ (onKey st .tab now).1.buffer = "" ∧
      (idleFire st false).2 = none ∧ (idleFire st false).1.buffer = "" := by
  have hnot : ¬ (jsTrim st.buffer).length ≥ 3 := by omega
  have hempty : ¬ (jsTrim "").length ≥ 3 := by decide
  by_cases hg : now - st.lastTs > RESET_GAP_MS
  · simp [onKey, idleFire, commitIfAny, hg, hempty, hnot]
  · simp [onKey, idleFire, commitIfAny, hg, hempty, hnot]

/-- C9 witness: the two-character buffer `"ab"` is dropped by every
commit path. -/
theorem c9_short_commit_dropped_witness :
    (jsTrim (DecState.mk "ab" 1000).buffer).length < 3 ∧
      ((onKey ⟨"ab", 1000⟩ .enter 1100).2 = none ∧
        (onKey ⟨"ab", 1000⟩ .enter 1100).1.buffer = "" ∧
        (onKey ⟨"ab", 1000⟩ .tab 1100).2 = none ∧
        (onKey ⟨"ab", 1000⟩ .tab 1100).1.buffer = "" ∧
        (idleFire ⟨"ab", 1000⟩ false).2 = none ∧
        (idleFire ⟨"ab", 1000⟩ false).1.buffer = "") :=
  ⟨by decide, c9_short_commit_dropped ⟨"ab", 1000⟩ 1100 (by decide)⟩

/-! ## Claim C2: getUsers equivalence of the two store variants -/

theorem storesAgree_empty : StoresAgree emptySqlite emptyJson := by
  constructor
  · intro n
    simp [emptySqlite, emptyJson, JsonOps.namesFromSessions]
  · simp [emptySqlite]

theorem namesFromSessions_append (ss : List Session) (s : Session) :
    JsonOps.namesFromSessions (ss ++ [s])
      = JsonOps.namesFromSessions ss ++
        (if jsTrim s.employee = "" then [] else [jsTrim s.employee]) := by
  by_cases h : jsTrim s.employee = "" <;>
    simp [JsonOps.namesFromSessions, List.filter_append, h]

theorem storesAgree_step (s1 : SqliteState) (s2 : JsonState) (op : StoreOp)
    (h : StoresAgree s1 s2) (hop : op.isAddOrLog = true) :
    StoresAgree (sqliteApply s1 op) (jsonApply s2 op) := by
  obtain ⟨hmem, hblank⟩ := h
  cases op with
  | renameUser o n => simp [StoreOp.isAddOrLog] at hop
  | deleteUser n => simp [StoreOp.isAddOrLog] at hop
  | addUser name =>
    by_cases hb : jsTrim name = ""
    · simpa [sqliteApply, jsonApply, SqliteStore.addUser, JsonOps.addUser, hb]
        using ⟨hmem, hblank⟩
    · have e1 : (sqliteApply s1 (.addUser name)).users
          = sqlInsertIgnoreUser s1.users (jsTrim name) := by
        simp [sqliteApply, SqliteStore.addUser, hb]
      have e2 : (jsonApply s2 (.addUser name)).usersFile
          = sortByLt viLt (if jsTrim name ∈ s2.usersFile then s2.usersFile
              else s2.usersFile ++ [jsTrim name]) := by
        simp [jsonApply, JsonOps.addUser, hb]
      have e3 : (jsonApply s2 (.addUser name)).sessions = s2.sessions := by
        simp [jsonApply, JsonOps.addUser, hb]
      constructor
      · intro n
        rw [e1, e2, e3, mem_sqlInsertIgnoreUser, mem_sortByLt, hmem n]
        by_cases hin : jsTrim name ∈ s2.usersFile
        · rw [if_pos hin]
          constructor
          · rintro ((h' | h') | rfl)
            · exact Or.inl h'
            · exact Or.inr h'
            · exact Or.inl hin
          · rintro (h' | h')
            · exact Or.inl (Or.inl h')
            · exact Or.inl (Or.inr h')
        · rw [if_neg hin]
          simp only [List.mem_append, List.mem_singleton]
          tauto
      · intro hc
        rw [e1, mem_sqlInsertIgnoreUser] at hc
        rcases hc with hc | hc
        · exact hblank hc
        · exact hb hc.symm
  | logSession s =>
    have e3 : (jsonApply s2 (.logSession s)).usersFile = s2.usersFile := rfl
    have e4 : (jsonApply s2 (.logSession s)).sessions = s2.sessions ++ [s] := rfl
    by_cases hb : jsTrim s.employee = ""
    · have e1 : (sqliteApply s1 (.logSession s)).users = s1.users := by
        simp [sqliteApply, SqliteStore.logSession, hb]
      constructor
      · intro n
        rw [e1, e3, e4, namesFromSessions_append, if_pos hb]
        simpa using hmem n
      · rw [e1]
        exact hblank
    · have e1 : (sqliteApply s1 (.logSession s)).users
          = sqlInsertIgnoreUser s1.users (jsTrim s.employee) := by
        simp [sqliteApply, SqliteStore.logSession, hb]
      constructor
      · intro n
        rw [e1, e3, e4, mem_sqlInsertIgnoreUser, namesFromSessions_append,
          if_neg hb, hmem n]
        simp only [List.mem_append, List.mem_singleton]
        tauto
      · intro hc
        rw [e1, mem_sqlInsertIgnoreUser] at hc
        rcases hc with hc | hc
        · exact hblank hc
        · exact hb hc.symm

theorem storesAgree_foldl (ops : List StoreOp) :
    ∀ (s1 : SqliteState) (s2 : JsonState), StoresAgree s1 s2 →
      (∀ op ∈ ops, op.isAddOrLog = true) →
      StoresAgree (ops.foldl sqliteApply s1) (ops.foldl jsonApply s2) := by
  induction ops with
  | nil =>
    intro s1 s2 h _
    simpa using h
  | cons op rest ih =>
    intro s1 s2 h hall
    simp only [List.foldl_cons]
    exact ih _ _ (storesAgree_step _ _ _ h (hall op (by simp)))
      (fun o ho => hall o (by simp [ho]))

/-- C2 counterexample, refuting both parts of the claimed equivalence.
Contents: after `addUser "alice"`, one session logged by `"alice"`, and
`deleteUser "alice"`, the SQLite store's `getUsers` returns `[]` while
the flat-file fallback still returns `["alice"]` (it re-derives the name
from the historical session).  Ordering: for the add-only history
`addUser "b"; addUser "B"` the two variants return the same names as
lists in different orders (`NOCASE` leaves the tie order between the
case-variants unspecified, while the `'vi'` collator orders lowercase
first), so even without deletions the results are not equal as lists. -/
theorem c2_getusers_counterexample :
    SqliteStore.getUsers (sqliteRun
        [.addUser "alice", .logSession ⟨"alice", "X", 0, 0, 0, "p"⟩,
         .deleteUser "alice"]) = [] ∧
      JsonOps.getUsers (jsonRun
        [.addUser "alice", .logSession ⟨"alice", "X", 0, 0, 0, "p"⟩,
         .deleteUser "alice"]) = ["alice"] ∧
      SqliteStore.getUsers (sqliteRun [.addUser "b", .addUser "B"])
        = ["B", "b"] ∧
      JsonOps.getUsers (jsonRun [.addUser "b", .addUser "B"])
        = ["b", "B"] := by
  refine ⟨by decide, by decide, by decide, by decide⟩

/-- C2 (amended): for every sequence of `addUser` and `logSession`
operations (no renames or deletions), the relational store and the
flat-file fallback agree on the set of names `getUsers` returns.  The
returned lists can still order case-variant names differently (SQLite
`NOCASE` leaves the tie order unspecified while the locale collator
orders lowercase first), and a `deleteUser` (or `renameUser`) can make
the two variants diverge even as sets, because the fallback merges names
back in from historical sessions. -/
theorem c2_getusers_agree_without_delete (ops : List StoreOp)
    (h : ∀ op ∈ ops, op.isAddOrLog = true) (name : String) :
    name ∈ SqliteStore.getUsers (sqliteRun ops)
      ↔ name ∈ JsonOps.getUsers (jsonRun ops) := by
  obtain ⟨hmem, hblank⟩ := storesAgree_foldl ops emptySqlite emptyJson storesAgree_empty h
  simp only [SqliteStore.getUsers, JsonOps.getUsers, sqliteRun, jsonRun,
    mem_sortByLt, List.mem_filter, mem_dedupFirst, List.mem_append,
    decide_eq_true_eq] at *
  constructor
  · intro hn
    refine ⟨(hmem name).mp hn, ?_⟩
    rintro rfl
    exact hblank hn
  · rintro ⟨hdisj, -⟩
    exact (hmem name).mpr hdisj

/-- C2 amended witness: an add and a log produce agreeing stores. -/
theorem c2_getusers_agree_without_delete_witness :
    "alice" ∈ SqliteStore.getUsers (sqliteRun
        [.addUser "alice", .logSession ⟨"bob", "X", 0, 0, 0, "p"⟩])
      ↔ "alice" ∈ JsonOps.getUsers (jsonRun
        [.addUser "alice", .logSession ⟨"bob", "X", 0, 0, 0, "p"⟩]) :=
  c2_getusers_agree_without_delete
    [.addUser "alice", .logSession ⟨"bob", "X", 0, 0, 0, "p"⟩]
    (by decide) "alice"

/-! ## Claim C3: rename rewrites history, delete does not -/

/-- C3: `renameUser old new` rewrites the `employee` of every session
previously attributed to `old` to `new`; a subsequent `deleteUser new`
removes only the roster rows named `new` and leaves every session
untouched. -/
theorem c3_rename_then_delete (st : SqliteState) (oldName newName : String)
    (ho : jsTrim oldName = oldName) (ho2 : oldName ≠ "")
    (hn : jsTrim newName = newName) (hn2 : newName ≠ "") :
    (SqliteStore.renameUser st oldName newName).1.sessions
        = st.sessions.map (fun s =>
            if s.employee = oldName then { s with employee := newName } else s) ∧
      (SqliteStore.deleteUser
          (SqliteStore.renameUser st oldName newName).1 newName).1.sessions
        = (SqliteStore.renameUser st oldName newName).1.sessions ∧
      (SqliteStore.deleteUser
          (SqliteStore.renameUser st oldName newName).1 newName).1.users
        = (SqliteStore.renameUser st oldName newName).1.users.filter
            (fun u => u ≠ newName) := by
  simp [SqliteStore.renameUser, SqliteStore.deleteUser, ho, hn, ho2, hn2]

/-- C3 witness: renaming `"alice"` to `"alicia"` over a one-session
history, then deleting `"alicia"`. -/
theorem c3_rename_then_delete_witness :
    (SqliteStore.renameUser ⟨["alice"], [⟨"alice", "X", 0, 0, 0, "p"⟩]⟩
          "alice" "alicia").1.sessions
        = [⟨"alice", "X", 0, 0, 0, "p"⟩].map (fun s =>
            if s.employee = "alice" then { s with employee := "alicia" } else s) ∧
      (SqliteStore.deleteUser
          (SqliteStore.renameUser ⟨["alice"], [⟨"alice", "X", 0, 0, 0, "p"⟩]⟩
            "alice" "alicia").1 "alicia").1.sessions
        = (SqliteStore.renameUser ⟨["alice"], [⟨"alice", "X", 0, 0, 0, "p"⟩]⟩
            "alice" "alicia").1.sessions ∧
      (SqliteStore.deleteUser
          (SqliteStore.renameUser ⟨["alice"], [⟨"alice", "X", 0, 0, 0, "p"⟩]⟩
            "alice" "alicia").1 "alicia").1.users
        = (SqliteStore.renameUser ⟨["alice"], [⟨"alice", "X", 0, 0, 0, "p"⟩]⟩
            "alice" "alicia").1.users.filter (fun u => u ≠ "alicia") :=
  c3_rename_then_delete ⟨["alice"], [⟨"alice", "X", 0, 0, 0, "p"⟩]⟩
    "alice" "alicia" (by decide) (by decide) (by decide) (by decide)

/-! ## Claim C10: rename onto an existing roster name -/

/-- C10: when the target name already exists in the roster, `renameUser`
leaves the roster unchanged (the conflicting row update is ignored, so
the old entry survives next to the target entry), yet still rewrites the
`employee` of every historical session from the old to the new name. -/
theorem c10_rename_conflict_merges_history (st : SqliteState)
    (oldName newName : String)
    (ho : jsTrim oldName = oldName) (ho2 : oldName ≠ "")
    (hn : jsTrim newName = newName) (hn2 : newName ≠ "")
    (hne : newName ≠ oldName) (hmem : newName ∈ st.users) :
    (SqliteStore.renameUser st oldName newName).1.users = st.users ∧
      (SqliteStore.renameUser st oldName newName).1.sessions
        = st.sessions.map (fun s =>
            if s.employee = oldName then { s with employee := newName } else s) := by
  simp [SqliteStore.renameUser, ho, hn, ho2, hn2, hmem, hne]

/-- C10 witness: renaming `"alice"` onto the existing `"bob"` keeps both
roster entries and rewrites alice's session history to bob. -/
theorem c10_rename_conflict_merges_history_witness :
    (SqliteStore.renameUser ⟨["alice", "bob"], [⟨"alice", "X", 0, 0, 0, "p"⟩]⟩
          "alice" "bob").1.users = ["alice", "bob"] ∧
      (SqliteStore.renameUser ⟨["alice", "bob"], [⟨"alice", "X", 0, 0, 0, "p"⟩]⟩
          "alice" "bob").1.sessions
        = [⟨"alice", "X", 0, 0, 0, "p"⟩].map (fun s =>
            if s.employee = "alice" then { s with employee := "bob" } else s) :=
  c10_rename_conflict_merges_history
    ⟨["alice", "bob"], [⟨"alice", "X", 0, 0, 0, "p"⟩]⟩ "alice" "bob"
    (by decide) (by decide) (by decide) (by decide) (by decide) (by decide)

end PackageApp
